import Mathlib

/-!
Verification of the framed SBML codec (`io_utils/sbml.py`) and the ensemble
persistence layer (`experimental/ensemble.py`), as a shallow embedding.

Modelling conventions:
* Python strings are Lean `String` (a list of characters); the string
  operations used by the source (`strip`, `split`, `split(':', 1)`,
  `replace`, `join`, `startswith`) are embedded below on `List Char`.
* Python floats are rationals `ℚ` (the source only compares and copies
  bound values, it never does float arithmetic on them).
* Python (ordered) dicts are ordered association lists; writing to a key
  replaces in place when present and appends otherwise.
* An SBML notes block is modelled as the list of the text runs of its
  paragraph children, which is exactly what `_save_metadata` produces and
  the only part `_load_metadata` reads.
* A function that can raise an uncaught Python exception returns `Option`
  (`none` for the exception); a function that prints a warning returns the
  printed messages alongside its value.
-/

namespace Framed

/-- Python `str.strip()` at the character level: drop leading and trailing
whitespace. -/
def pyStrip (l : List Char) : List Char :=
  ((l.dropWhile Char.isWhitespace).reverse.dropWhile Char.isWhitespace).reverse

/-- Accumulator worker for Python `str.split()` (split on whitespace runs,
dropping empty tokens): `acc` is the current token, reversed. -/
def splitWsAux : List Char → List Char → List (List Char)
  | [], acc => if acc = [] then [] else [acc.reverse]
  | c :: cs, acc =>
    if c.isWhitespace then
      if acc = [] then splitWsAux cs [] else acc.reverse :: splitWsAux cs []
    else splitWsAux cs (c :: acc)

/-- Python `str.split()` with no argument: maximal non-whitespace runs. -/
def splitWsChars (l : List Char) : List (List Char) :=
  splitWsAux l []

/-- The character test of the colon split. -/
def notColon (c : Char) : Bool :=
  c ≠ ':'

/-- Python `s.split(':', 1)` when a colon is present: the part before the
first colon and the part after it (`none` when `s` has no colon, which is
the `':' in note_str` test of `_load_metadata`). -/
def splitFirstColon (l : List Char) : Option (List Char × List Char) :=
  if l.contains ':' then
    some (l.takeWhile notColon, (l.dropWhile notColon).tail)
  else none

/-- Digit-string to numeral, `none` on a non-digit or the empty string. -/
def digitsToNat : List Char → Option Nat
  | [] => none
  | ds =>
    if ds.all Char.isDigit then
      some (ds.foldl (fun n c => 10 * n + (c.toNat - 48)) 0)
    else none

/-- Python `int(s)` on a decimal string: strip whitespace, optional sign,
digits; `none` models the `ValueError` exception. -/
def pyInt (l : List Char) : Option Int :=
  match pyStrip l with
  | '-' :: ds => (digitsToNat ds).map (fun n => -(n : Int))
  | '+' :: ds => (digitsToNat ds).map (fun n => (n : Int))
  | ds => (digitsToNat ds).map (fun n => (n : Int))

/-- Python `' '.join` at the character level. -/
def joinSpace : List (List Char) → List Char
  | [] => []
  | [t] => t
  | t :: ts => t ++ ' ' :: joinSpace ts

/-! ### Ordered dict primitives (Python dict semantics) -/

/-- `d[k] = v` on an ordered dict: replace in place when the key is present,
append at the end otherwise. -/
def setMeta (md : List (String × String)) (k v : String) : List (String × String) :=
  if md.any (fun p => p.1 = k) then
    md.map (fun p => if p.1 = k then (k, v) else p)
  else md ++ [(k, v)]

/-- `d.get(k)` / `k in d` on an ordered dict. -/
def lookupMeta (md : List (String × String)) (k : String) : Option String :=
  (md.find? (fun p => p.1 = k)).map (fun p => p.2)

/-! ### Metadata codec (`_save_metadata` / `_load_metadata`) -/

/-- The serialized text of one metadata entry, `'<p>{}: {}</p>'.format(key,
value)` with the markup wrapper kept structural. -/
def noteLine (k v : String) : String :=
  k ++ ": " ++ v

/-- `_save_metadata`: one paragraph per entry, in map order; nothing is
written for an empty map (the `if elem.metadata:` guard). -/
def save_metadata (md : List (String × String)) : List String :=
  if md = [] then [] else md.map (fun p => noteLine p.1 p.2)

/-- One iteration of `_load_metadata`: a paragraph text run holding a colon
is split once on the first colon and stored under the stripped key with the
stripped value; a colon-free line is dropped. -/
def load_metadata_step (md : List (String × String)) (note : String) :
    List (String × String) :=
  match splitFirstColon note.data with
  | some (k, v) => setMeta md ⟨pyStrip k⟩ ⟨pyStrip v⟩
  | none => md

/-- `_load_metadata` over the paragraph text runs of a notes block. -/
def load_metadata (notes : List String) : List (String × String) :=
  notes.foldl load_metadata_step []

/-! ### Module constants of `io_utils/sbml.py` -/

/-- `COBRA_MODEL = 'cobra'`. -/
def COBRA_MODEL : String := "cobra"

/-- `FBC2_MODEL = 'fbc2'`. -/
def FBC2_MODEL : String := "fbc2"

/-- `LB_TAG = 'LOWER_BOUND'`. -/
def LB_TAG : String := "LOWER_BOUND"

/-- `UB_TAG = 'UPPER_BOUND'`. -/
def UB_TAG : String := "UPPER_BOUND"

/-- `OBJ_TAG = 'OBJECTIVE_COEFFICIENT'`. -/
def OBJ_TAG : String := "OBJECTIVE_COEFFICIENT"

/-- `GPR_TAG = 'GENE_ASSOCIATION'`. -/
def GPR_TAG : String := "GENE_ASSOCIATION"

/-- `DEFAULT_LOWER_BOUND_ID = 'cobra_default_lb'`. -/
def DEFAULT_LOWER_BOUND_ID : String := "cobra_default_lb"

/-- `DEFAULT_UPPER_BOUND_ID = 'cobra_default_ub'`. -/
def DEFAULT_UPPER_BOUND_ID : String := "cobra_default_ub"

/-- `DEFAULT_ZERO_BOUND_ID = 'cobra_0_bound'`. -/
def DEFAULT_ZERO_BOUND_ID : String := "cobra_0_bound"

/-- `DEFAULT_LOWER_BOUND = -1000`. -/
def DEFAULT_LOWER_BOUND : ℚ := -1000

/-- `DEFAULT_UPPER_BOUND = 1000`. -/
def DEFAULT_UPPER_BOUND : ℚ := 1000

/-- An SBML parameter: an id with a numeric value. -/
structure Param where
  id : String
  value : ℚ
deriving DecidableEq, Repr

/-! ### Bounds / objective codec -/

/-- One step of `_save_fbc_fluxbounds` for a reaction `(r_id, (lb, ub))`:
extends the accumulated model parameter list and records the flux-bound
references set on the reaction's fbc plugin.  The upper-bound `elif` tests
`lb == 0` exactly as the source does (`elif lb == 0:` on the upper-bound
branch, line 546). -/
def save_fbc_fluxbounds_step (acc : List Param × List (String × String × String))
    (rb : String × Option ℚ × Option ℚ) : List Param × List (String × String × String) :=
  let r_id := rb.1
  let lb := rb.2.1
  let ub := rb.2.2
  let stageLb : List Param × String :=
    match lb with
    | none => (acc.1, DEFAULT_LOWER_BOUND_ID)
    | some l =>
      if l ≤ DEFAULT_LOWER_BOUND then (acc.1, DEFAULT_LOWER_BOUND_ID)
      else if l = 0 then (acc.1, DEFAULT_ZERO_BOUND_ID)
      else (acc.1 ++ [⟨r_id ++ "_lower_bound", l⟩], r_id ++ "_lower_bound")
  let stageUb : List Param × String :=
    match ub with
    | none => (stageLb.1, DEFAULT_UPPER_BOUND_ID)
    | some u =>
      if DEFAULT_UPPER_BOUND ≤ u then (stageLb.1, DEFAULT_UPPER_BOUND_ID)
      else if lb = some 0 then (stageLb.1, DEFAULT_ZERO_BOUND_ID)
      else (stageLb.1 ++ [⟨r_id ++ "_upper_bound", u⟩], r_id ++ "_upper_bound")
  (stageUb.1, acc.2 ++ [(r_id, stageLb.2, stageUb.2)])

/-- `_save_fbc_fluxbounds`: create the three shared parameters, then for each
reaction either reference a shared parameter or create a fresh
reaction-scoped one; returns the model parameter list and, per reaction,
the `(id, lowerFluxBound, upperFluxBound)` references. -/
def save_fbc_fluxbounds (bounds : List (String × Option ℚ × Option ℚ)) :
    List Param × List (String × String × String) :=
  bounds.foldl save_fbc_fluxbounds_step
    ([⟨DEFAULT_LOWER_BOUND_ID, DEFAULT_LOWER_BOUND⟩,
      ⟨DEFAULT_UPPER_BOUND_ID, DEFAULT_UPPER_BOUND⟩,
      ⟨DEFAULT_ZERO_BOUND_ID, 0⟩], [])

/-- The parameter table of `_load_fbc2_bounds`
(`{param.getId(): param.getValue() ...}`): a Python dict comprehension, so a
later parameter with the same id wins. -/
def paramTable (ps : List Param) (pid : String) : Option ℚ :=
  (ps.reverse.find? (fun p => p.id = pid)).map (fun p => p.value)

/-- `_load_fbc2_bounds`: resolve each reaction's two flux-bound references
against the parameter table; a missing id raises `KeyError` (`none`). -/
def load_fbc2_bounds (ps : List Param) (rxns : List (String × String × String)) :
    Option (List (String × Option ℚ × Option ℚ)) :=
  rxns.mapM (fun r =>
    match paramTable ps r.2.1, paramTable ps r.2.2 with
    | some l, some u => some (r.1, some l, some u)
    | _, _ => none)

/-- `_get_cb_parameter`: look a tag up in the reaction's kinetic-law
parameters, falling back to the given default when the kinetic law or the
parameter is absent. -/
def get_cb_parameter (kineticParams : Option (List Param)) (tag : String)
    (default_value : Option ℚ) : Option ℚ :=
  match kineticParams with
  | none => default_value
  | some ps =>
    match ps.find? (fun p => p.id = tag) with
    | some p => some p.value
    | none => default_value

/-- `_save_cobra_parameters`, body of the per-reaction loop: materialize the
sentinel defaults when `set_default_bounds`, write the bound parameters that
are present, and always write the `OBJECTIVE_COEFFICIENT` parameter (the
source has no guard on `coeff`). -/
def save_cobra_parameters_rxn (lb ub : Option ℚ) (coeff : ℚ)
    (set_default_bounds : Bool) : List Param :=
  let lb' := if set_default_bounds && lb.isNone then some DEFAULT_LOWER_BOUND else lb
  let ub' := if set_default_bounds && ub.isNone then some DEFAULT_UPPER_BOUND else ub
  (match lb' with
   | some l => [⟨LB_TAG, l⟩]
   | none => []) ++
  (match ub' with
   | some u => [⟨UB_TAG, u⟩]
   | none => []) ++
  [⟨OBJ_TAG, coeff⟩]

/-- `_save_fbc_objective`: write a flux objective only for coefficients that
are truthy, i.e. nonzero. -/
def save_fbc_objective (objective : List (String × ℚ)) : List (String × ℚ) :=
  objective.filter (fun p => p.2 ≠ 0)

/-- `_load_cobra_objective`: read `OBJECTIVE_COEFFICIENT` with default `0`
from each reaction's kinetic law and keep the truthy (nonzero) ones. -/
def load_cobra_objective (rxns : List (String × Option (List Param))) :
    List (String × ℚ) :=
  rxns.filterMap (fun r =>
    match get_cb_parameter r.2 OBJ_TAG (some 0) with
    | some c => if c ≠ 0 then some (r.1, c) else none
    | none => none)

/-- `_load_cobra_bounds`: read `LOWER_BOUND` / `UPPER_BOUND` with default
`None` from each reaction's kinetic law. -/
def load_cobra_bounds (rxns : List (String × Option (List Param))) :
    List (String × Option ℚ × Option ℚ) :=
  rxns.map (fun r =>
    (r.1, get_cb_parameter r.2 LB_TAG none, get_cb_parameter r.2 UB_TAG none))

/-! ### GPR data model (`core/cbmodel.py` side of the codec) -/

/-- A protein: an AND-group of gene identifiers. -/
structure Protein where
  genes : List String
deriving DecidableEq, Repr

/-- A GPR association: an OR of proteins. -/
structure GPRAssociation where
  proteins : List Protein
deriving DecidableEq, Repr

/-! ### Structured-dialect gene associations (`_parse_fbc_association`) -/

/-- The libsbml `FbcAssociation` shapes: `GeneProductRef`, `FbcAnd`,
`FbcOr`. -/
inductive FbcAssoc where
  | geneRef (g : String)
  | fbcAnd (items : List FbcAssoc)
  | fbcOr (items : List FbcAssoc)
deriving Repr

/-- `isGeneProductRef()` (with the call). -/
def isGeneProductRefB : FbcAssoc → Bool
  | .geneRef _ => true
  | _ => false

/-- `getGeneProduct()`: only a `GeneProductRef` has this attribute; calling
it on any other node raises `AttributeError` (`none`). -/
def getGeneProduct : FbcAssoc → Option String
  | .geneRef g => some g
  | _ => none

/-- The message printed by `_parse_fbc_association` for an unsupported node
shape. -/
def notDnfMsg : String := "Gene association is not DNF"

/-- Inner loop of `_parse_fbc_association` over the children of an AND node:
collect the gene products of the `GeneProductRef` children and print a
warning for (and skip) anything else. -/
def collectAndGenes (items : List FbcAssoc) : List String × List String :=
  items.foldl
    (fun acc subitem =>
      match subitem with
      | .geneRef g => (acc.1 ++ [g], acc.2)
      | _ => (acc.1, acc.2 ++ [notDnfMsg]))
    ([], [])

/-- `_parse_fbc_association`: returns the association together with the
printed warnings; `none` models the `AttributeError` raised when the
uncalled `elif item.isGeneProductRef` (a bound method, always truthy, source
line 324) lets `item.getGeneProduct()` run on a node without that method. -/
def parse_fbc_association (a : FbcAssoc) : Option (GPRAssociation × List String) :=
  match a with
  | .fbcOr items =>
    let step : List Protein × List String → FbcAssoc →
        Option (List Protein × List String) := fun acc item =>
      match item with
      | .fbcAnd subitems =>
        let gw := collectAndGenes subitems
        some (acc.1 ++ [⟨gw.1⟩], acc.2 ++ gw.2)
      | _ =>
        match getGeneProduct item with
        | some g => some (acc.1 ++ [⟨[g]⟩], acc.2)
        | none => none
    (items.foldlM step ([], [])).map (fun acc => (⟨acc.1⟩, acc.2))
  | .fbcAnd items =>
    let gw := collectAndGenes items
    some (⟨[⟨gw.1⟩]⟩, gw.2)
  | .geneRef g => some (⟨[⟨[g]⟩]⟩, [])

/-! ### Legacy textual rule pipeline (`parse_gpr_rule`)

The tokenization, identifier normalization and the construction of the
`GPRAssociation` from the expression tree are translated from the source.
The boolean-expression layer (`parse_expr` / `is_dnf` / `to_dnf`) comes
from the external sympy library; it is modelled from the spec: a standard
precedence parse (AND binds tighter than OR, parentheses override) with
flattened n-ary connectives, and a generic AND-over-OR distribution to
reach DNF. -/

/-- A sympy boolean expression over gene symbols: `Gene | And(seq) |
Or(seq)`. -/
inductive BoolExpr where
  | var (name : String)
  | conj (args : List BoolExpr)
  | disj (args : List BoolExpr)
deriving Repr

/-- `rule.replace('(', '( ').replace(')', ' )')`. -/
def padParens (l : List Char) : List Char :=
  (l.map (fun c =>
    if c = '(' then ['(', ' ']
    else if c = ')' then [' ', ')']
    else [c])).flatten

/-- `token.replace('-', '_')`. -/
def hyphenToUnderscore (s : String) : String :=
  ⟨s.data.map (fun c => if c = '-' then '_' else c)⟩

/-- `token.startswith('G_')` at the character level. -/
def startsWithGenePrefix (s : String) : Bool :=
  match s.data with
  | 'G' :: '_' :: _ => true
  | _ => false

/-- The `replacement` closure of `parse_gpr_rule`: operators to `&`/`|`,
parentheses kept, and gene tokens prefixed with `G_` when the prefix is
absent, with hyphens translated to underscores. -/
def replacement (token : String) : String :=
  if token = "and" then "&"
  else if token = "or" then "|"
  else if token = "(" ∨ token = ")" then token
  else if startsWithGenePrefix token then hyphenToUnderscore token
  else "G_" ++ hyphenToUnderscore token

mutual

/-- Modelled from the spec: sympy `parse_expr` on `&`/`|`/parentheses
tokens, recursive descent with fuel (OR level). -/
def parseDisjE : Nat → List String → Option (BoolExpr × List String)
  | 0, _ => none
  | f + 1, ts => do
    let (e, ts₁) ← parseConjE f ts
    let (es, ts₂) ← parseDisjTail f ts₁
    pure (if es.isEmpty then e else .disj (e :: es), ts₂)

/-- Modelled from the spec: further `| conjunction` items of an OR chain. -/
def parseDisjTail : Nat → List String → Option (List BoolExpr × List String)
  | 0, _ => none
  | f + 1, "|" :: ts => do
    let (e, ts₁) ← parseConjE f ts
    let (es, ts₂) ← parseDisjTail f ts₁
    pure (e :: es, ts₂)
  | _ + 1, ts => pure ([], ts)

/-- Modelled from the spec: AND level of the precedence parse. -/
def parseConjE : Nat → List String → Option (BoolExpr × List String)
  | 0, _ => none
  | f + 1, ts => do
    let (e, ts₁) ← parseAtomE f ts
    let (es, ts₂) ← parseConjTail f ts₁
    pure (if es.isEmpty then e else .conj (e :: es), ts₂)

/-- Modelled from the spec: further `& atom` items of an AND chain. -/
def parseConjTail : Nat → List String → Option (List BoolExpr × List String)
  | 0, _ => none
  | f + 1, "&" :: ts => do
    let (e, ts₁) ← parseAtomE f ts
    let (es, ts₂) ← parseConjTail f ts₁
    pure (e :: es, ts₂)
  | _ + 1, ts => pure ([], ts)

/-- Modelled from the spec: an atom is a symbol or a parenthesized
expression. -/
def parseAtomE : Nat → List String → Option (BoolExpr × List String)
  | 0, _ => none
  | f + 1, "(" :: ts =>
    (match parseDisjE f ts with
     | some (e, ")" :: rest) => some (e, rest)
     | _ => none)
  | _ + 1, t :: ts =>
    if t = "(" ∨ t = ")" ∨ t = "&" ∨ t = "|" then none else some (.var t, ts)
  | _ + 1, [] => none

end

/-- A literal: a bare gene symbol. -/
def isLit : BoolExpr → Bool
  | .var _ => true
  | _ => false

/-- A conjunction of literals (or a single literal). -/
def isConjLits : BoolExpr → Bool
  | .conj args => args.all isLit
  | e => isLit e

/-- Modelled from the spec: sympy `is_dnf` — an OR of AND-groups of
literals. -/
def is_dnf : BoolExpr → Bool
  | .disj args => args.all isConjLits
  | e => isConjLits e

mutual

/-- Modelled from the spec: the DNF terms (AND-groups of gene names) of an
expression, distributing AND over OR. -/
def dnfTerms : BoolExpr → List (List String)
  | .var v => [[v]]
  | .conj args => dnfConjTerms args
  | .disj args => dnfDisjTerms args

/-- Cartesian distribution over the conjuncts. -/
def dnfConjTerms : List BoolExpr → List (List String)
  | [] => [[]]
  | e :: es => (dnfTerms e).flatMap (fun t => (dnfConjTerms es).map (fun u => t ++ u))

/-- Concatenation over the disjuncts. -/
def dnfDisjTerms : List BoolExpr → List (List String)
  | [] => []
  | e :: es => dnfTerms e ++ dnfDisjTerms es

end

/-- Modelled from the spec: sympy `to_dnf`, rebuilding an OR of ANDs from
the distributed terms. -/
def to_dnf (e : BoolExpr) : BoolExpr :=
  let termExpr : List String → BoolExpr := fun t =>
    match t with
    | [v] => .var v
    | vs => .conj (vs.map .var)
  match dnfTerms e with
  | [t] => termExpr t
  | ts => .disj (ts.map termExpr)

/-- `str(gene)` on a sympy expression: symbols print as their name.  In the
positions the source reads (arguments of a DNF expression) only symbols
occur, so the other shapes are irrelevant here. -/
def exprStr : BoolExpr → String
  | .var v => v
  | _ => ""

/-- Lines 250-267 of the source: build the `GPRAssociation` from the DNF
expression, with the asymmetric unwrapping of single genes. -/
def gprFromExpr : BoolExpr → GPRAssociation
  | .disj args =>
    ⟨args.map (fun sub =>
      match sub with
      | .conj gs => ⟨gs.map exprStr⟩
      | e => ⟨[exprStr e]⟩)⟩
  | .conj args => ⟨[⟨args.map exprStr⟩]⟩
  | e => ⟨[⟨[exprStr e]⟩]⟩

/-- Modelled from the spec: sympy `parse_expr` over the whole rule string,
`none` for a parse failure (sympy exception). -/
def sympyParseExpr (s : String) : Option BoolExpr :=
  let toks := (splitWsChars s.data).map (fun l => (⟨l⟩ : String))
  match parseDisjE (3 * (toks.length + 1)) toks with
  | some (e, []) => some e
  | _ => none

/-- `parse_gpr_rule`: `some none` is the Python `None` result for an empty
rule; the outer `none` is an uncaught exception from the expression
layer. -/
def parse_gpr_rule (rule : String) : Option (Option GPRAssociation) :=
  if rule = "" then some none
  else
    let padded := padParens rule.data
    let toks := (splitWsChars padded).map (fun l => (⟨l⟩ : String))
    let joined : String := ⟨joinSpace ((toks.map replacement).map String.data)⟩
    match sympyParseExpr joined with
    | none => none
    | some expr =>
      let expr := if is_dnf expr then expr else to_dnf expr
      some (some (gprFromExpr expr))

/-! ### Model exchange orchestrator (`_load_cbmodel` and the sub-loads) -/

/-- The slice of an SBML reaction that the constraint-based loader reads:
its id, the text runs of its notes paragraphs, an optional kinetic law with
parameters (legacy dialect), the fbc flux-bound references (empty string
when unset, as libsbml returns) and the optional fbc gene-product
association. -/
structure SbmlReactionDoc where
  id : String
  notes : List String
  kineticParams : Option (List Param)
  lbRef : String
  ubRef : String
  gpa : Option FbcAssoc
deriving Repr

/-- The slice of an SBML document the constraint-based loader reads. -/
structure SbmlDoc where
  id : String
  parameters : List Param
  reactions : List SbmlReactionDoc
  geneProducts : List (String × String)
  fluxObjectives : List (String × ℚ)
deriving Repr

/-- A structurally loaded reaction: id plus decoded metadata. -/
structure RxnM where
  id : String
  metadata : List (String × String)
deriving DecidableEq, Repr

/-- The observable result of `_load_cbmodel`: the model fields the
flavor-specific sub-loads populate, plus any printed warnings. -/
structure CBModelL where
  id : String
  reactions : List RxnM
  bounds : List (String × Option ℚ × Option ℚ)
  objective : List (String × ℚ)
  genes : List (String × String)
  gprs : List (String × Option GPRAssociation)
  warnings : List String
deriving DecidableEq, Repr

/-- `_load_cobra_gpr` for one reaction: `metadata.pop(GPR_TAG, None)`
followed by `parse_gpr_rule` when the popped rule is truthy. -/
def load_cobra_gpr_rxn (rxn : RxnM) : Option (RxnM × Option GPRAssociation) :=
  match lookupMeta rxn.metadata GPR_TAG with
  | some rule =>
    let popped : RxnM := ⟨rxn.id, rxn.metadata.filter (fun p => p.1 ≠ GPR_TAG)⟩
    if rule = "" then some (popped, none)
    else
      match parse_gpr_rule rule with
      | some gpr => some (popped, gpr)
      | none => none
  | none => some (rxn, none)

/-- `_load_cobra_gpr`: parse each reaction's rule, collect the union of the
genes, sort them, and record a `Gene(gene, gene[2:])` for each. -/
def load_cobra_gpr (rxns : List RxnM) :
    Option (List RxnM × List (String × Option GPRAssociation) × List (String × String)) := do
  let parsed ← rxns.mapM load_cobra_gpr_rxn
  let geneIds : List String :=
    (parsed.flatMap (fun p =>
      match p.2 with
      | some gpr => gpr.proteins.flatMap (fun prot => prot.genes)
      | none => [])).dedup.mergeSort (fun a b => a ≤ b)
  pure (parsed.map (fun p => p.1),
        parsed.map (fun p => (p.1.id, p.2)),
        geneIds.map (fun g => (g, (⟨g.data.drop 2⟩ : String))))

/-- `_load_fbc2_gpr` for one reaction. -/
def load_fbc2_gpr_rxn (rxn : SbmlReactionDoc) :
    Option ((String × Option GPRAssociation) × List String) :=
  match rxn.gpa with
  | some a => (parse_fbc_association a).map (fun gw => ((rxn.id, some gw.1), gw.2))
  | none => some ((rxn.id, none), [])

/-- `_load_cbmodel`: structural load (including metadata decode), then the
flavor dispatch.  A flavor other than `'cobra'` and `'fbc2'` prints
`unsupported SBML flavor` and still returns the structurally loaded model;
`none` models an uncaught exception inside a sub-load. -/
def load_cbmodel (doc : SbmlDoc) (flavor : Option String) : Option CBModelL :=
  let structural : List RxnM :=
    doc.reactions.map (fun r => ⟨r.id, load_metadata r.notes⟩)
  if flavor = some COBRA_MODEL then do
    let kin := doc.reactions.map (fun r => (r.id, r.kineticParams))
    let bounds := load_cobra_bounds kin
    let objective := load_cobra_objective kin
    let (rxns', gprs, genes) ← load_cobra_gpr structural
    pure ⟨doc.id, rxns', bounds, objective, genes, gprs, []⟩
  else if flavor = some FBC2_MODEL then do
    let bounds ← load_fbc2_bounds doc.parameters
      (doc.reactions.map (fun r => (r.id, r.lbRef, r.ubRef)))
    let objective := doc.fluxObjectives.filter (fun p => p.2 ≠ 0)
    let gprsW ← doc.reactions.mapM load_fbc2_gpr_rxn
    pure ⟨doc.id, structural, bounds, objective, doc.geneProducts,
          gprsW.map (fun p => p.1), gprsW.flatMap (fun p => p.2)⟩
  else
    some ⟨doc.id, structural, [], [], [], [], ["unsupported SBML flavor"]⟩

/-! ### Ensemble persistence (`experimental/ensemble.py`) -/

/-- The fields of `EnsembleModel` the persistence layer touches. -/
structure EnsembleModel where
  reactions : List String
  size : Nat
  reaction_states : List (String × List Bool)
deriving DecidableEq, Repr

/-- The `EnsembleModel` constructor: asserts that every given state vector
belongs to a model reaction and has length `size` (`none` is the failed
`assert`); an empty/absent `reaction_states` dict is falsy, producing the
all-`True` default. -/
def mkEnsembleModel (modelRxns : List String) (size : Nat)
    (reaction_states : List (String × List Bool)) : Option EnsembleModel :=
  if reaction_states = [] then
    some ⟨modelRxns, size, modelRxns.map (fun r => (r, List.replicate size true))⟩
  else if reaction_states.all (fun p =>
      modelRxns.contains p.1 && p.2.length = size) then
    some ⟨modelRxns, size, reaction_states⟩
  else none

/-- `str(int(b))`: the one-character token of a boolean. -/
def boolTok (b : Bool) : List Char :=
  if b then ['1'] else ['0']

/-- `' '.join(map(str, map(int, states)))`: booleans as space-separated
`0`/`1` tokens. -/
def state_as_str (states : List Bool) : String :=
  ⟨joinSpace (states.map boolTok)⟩

/-- `map(bool, map(int, state_as_str.split()))`: `none` models the
`ValueError` of `int` on a malformed token. -/
def parse_states (s : String) : Option (List Bool) :=
  ((splitWsChars s.data).mapM pyInt).map (fun ns => ns.map (fun n => n != 0))

/-- The effect of one `save_ensemble` loop iteration on one reaction:
`ensemble.model.reactions[r_id].metadata['ENSEMBLE_STATE'] = state_as_str`
touches exactly the reaction whose id is the state entry's key. -/
def save_ensemble_upd (p : String × List Bool) (rxn : RxnM) : RxnM :=
  if rxn.id = p.1 then
    ⟨rxn.id, setMeta rxn.metadata "ENSEMBLE_STATE" (state_as_str p.2)⟩
  else rxn

/-- The metadata mutation of `save_ensemble`: write each state vector into
its reaction's metadata under `ENSEMBLE_STATE`, in place, on the ensemble's
own model; `none` models the `KeyError` for a state vector whose reactionid
is not in the model. -/
def save_ensemble_meta (rxns : List RxnM) (states : List (String × List Bool)) :
    Option (List RxnM) :=
  if states.all (fun p => rxns.any (fun rxn => rxn.id = p.1)) then
    some (states.foldl (fun acc p => acc.map (save_ensemble_upd p)) rxns)
  else none

/-- The cumulative effect of the `save_ensemble` loop on one reaction, read
off the state table: annotated reactions gain the reserved key, others are
untouched. -/
def save_ensemble_apply (states : List (String × List Bool)) (rxn : RxnM) : RxnM :=
  match states.find? (fun p => p.1 = rxn.id) with
  | some p => ⟨rxn.id, setMeta rxn.metadata "ENSEMBLE_STATE" (state_as_str p.2)⟩
  | none => rxn

/-- `save_ensemble`: mutate the in-memory model's reaction metadata, then
serialize it (`save_cbmodel` writing each reaction's notes through
`_save_metadata`).  The first component is the model as it remains in
memory after the call. -/
def save_ensemble (rxns : List RxnM) (states : List (String × List Bool)) :
    Option (List RxnM × List (String × List String)) :=
  (save_ensemble_meta rxns states).map
    (fun out => (out, out.map (fun r => (r.id, save_metadata r.metadata))))

/-- The per-reaction decode loop of `load_ensemble`: collect, in model
order, the parsed state vector of every reaction whose metadata carries
`ENSEMBLE_STATE`; `none` propagates the `ValueError` of a malformed
vector. -/
def decode_states : List RxnM → Option (List (String × List Bool))
  | [] => some []
  | rxn :: rest =>
    match lookupMeta rxn.metadata "ENSEMBLE_STATE" with
    | some s =>
      match parse_states s with
      | some bs => (decode_states rest).map (fun t => (rxn.id, bs) :: t)
      | none => none
    | none => decode_states rest

/-- The observable outcomes of `load_ensemble`: a built ensemble, the
printed `Error: reactions have different ensemble size` followed by a bare
`return` (Python `None`), or an uncaught exception (`ValueError`,
`IndexError` on `sizes[0]` with no annotated reaction, or a failed
constructor assert). -/
inductive EnsembleLoadResult where
  | ok (e : EnsembleModel)
  | sizeMismatch
  | crash
deriving DecidableEq, Repr

/-- `load_ensemble` after `load_cbmodel`: decode all reactions, compare the
vector lengths once, then build the `EnsembleModel` with `sizes[0]`. -/
def load_ensemble (rxns : List RxnM) : EnsembleLoadResult :=
  match decode_states rxns with
  | none => .crash
  | some rs =>
    let sizes := rs.map (fun p => p.2.length)
    if 1 < sizes.dedup.length then .sizeMismatch
    else
      match sizes with
      | [] => .crash
      | l :: _ =>
        match mkEnsembleModel (rxns.map (fun r => r.id)) l rs with
        | some e => .ok e
        | none => .crash

/-- The key under which `_load_metadata` files a serialized metadata entry:
the stripped text before the first colon of its note line (`none` when the
line has no colon and is dropped). -/
def decodedKey (kv : String × String) : Option String :=
  (splitFirstColon (noteLine kv.1 kv.2).data).map (fun p => (⟨pyStrip p.1⟩ : String))

/-- `load_ensemble(save_ensemble(...))`: save the ensemble, then load the
written document back (structural reaction load plus `_load_metadata`,
then the ensemble decode). -/
def ensemble_roundtrip (rxns : List RxnM) (states : List (String × List Bool)) :
    EnsembleLoadResult :=
  match save_ensemble rxns states with
  | some pr => load_ensemble (pr.2.map (fun p => ⟨p.1, load_metadata p.2⟩))
  | none => .crash

/-- The recovered reaction-state table of a round trip: in model-reaction
order, each annotated reaction paired with its saved vector. -/
def recovered_states (rxns : List RxnM) (states : List (String × List Bool)) :
    List (String × List Bool) :=
  rxns.filterMap (fun rxn =>
    (states.find? (fun p => p.1 = rxn.id)).map (fun p => (rxn.id, p.2)))

/-- A one-reaction document used as a concrete loading scenario. -/
def exDocC3 : SbmlDoc :=
  ⟨"m", [], [⟨"R1", ["SOURCE: KEGG"], none, "", "", none⟩], [], []⟩

/-! ### Helper lemmas: ordered-dict semantics -/

/-- In-place replacement of an existing key is found, with the new value. -/
theorem find?_replace_self (md : List (String × String)) (k v : String)
    (hany : md.any (fun p => p.1 = k)) :
    (md.map (fun p => if p.1 = k then (k, v) else p)).find? (fun p => p.1 = k)
      = some (k, v) := by
  induction md with
  | nil => simp at hany
  | cons p md ih =>
    by_cases hp : p.1 = k
    · simp [List.find?_cons, hp]
    · have hrest : md.any (fun q => q.1 = k) := by
        simpa [List.any_cons, hp] using hany
      simp [List.find?_cons, hp, ih hrest]

/-- A key appended behind key-free entries is found, with its value. -/
theorem find?_append_key (md : List (String × String)) (k v : String)
    (hany : md.any (fun p => p.1 = k) = false) :
    (md ++ [(k, v)]).find? (fun p => p.1 = k) = some (k, v) := by
  induction md with
  | nil => simp
  | cons p md ih =>
    have hp : ¬ p.1 = k := by
      intro h
      simp [List.any_cons, h] at hany
    have hrest : md.any (fun q => q.1 = k) = false := by
      revert hany
      simp [List.any_cons, hp]
    simp [List.find?_cons, hp, ih hrest]

/-- Replacing key `k` in place leaves the search for another key alone. -/
theorem find?_replace_ne (md : List (String × String)) (k v k' : String)
    (h : k' ≠ k) :
    (md.map (fun p => if p.1 = k then (k, v) else p)).find? (fun p => p.1 = k')
      = md.find? (fun p => p.1 = k') := by
  induction md with
  | nil => rfl
  | cons p md ih =>
    by_cases hp : p.1 = k
    · have h₁ : ¬ (k : String) = k' := fun hh => h (hh.symm)
      have h₂ : ¬ p.1 = k' := by rw [hp]; exact h₁
      simp [List.find?_cons, hp, h₁, h₂, ih]
    · by_cases hpk' : p.1 = k'
      · simp [List.find?_cons, hp, hpk', h]
      · simp [List.find?_cons, hp, hpk', ih]

/-- Appending key `k` leaves the search for another key alone. -/
theorem find?_append_ne (md : List (String × String)) (k v k' : String)
    (h : k' ≠ k) :
    (md ++ [(k, v)]).find? (fun p => p.1 = k') = md.find? (fun p => p.1 = k') := by
  induction md with
  | nil =>
    have h₁ : ¬ (k : String) = k' := fun hh => h (hh.symm)
    simp [List.find?_cons, h₁]
  | cons p md ih =>
    by_cases hpk' : p.1 = k'
    · simp [List.find?_cons, hpk']
    · simp [List.find?_cons, hpk', ih]

/-- After writing key `k`, looking `k` up returns the written value. -/
theorem lookupMeta_setMeta_self (md : List (String × String)) (k v : String) :
    lookupMeta (setMeta md k v) k = some v := by
  unfold setMeta lookupMeta
  by_cases hany : md.any (fun p => p.1 = k)
  · simp [hany, find?_replace_self md k v hany]
  · simp only [Bool.not_eq_true] at hany
    simp [hany, find?_append_key md k v hany]

/-- Writing key `k` does not change the lookup of a different key. -/
theorem lookupMeta_setMeta_ne (md : List (String × String)) (k v k' : String)
    (h : k' ≠ k) : lookupMeta (setMeta md k v) k' = lookupMeta md k' := by
  unfold setMeta lookupMeta
  by_cases hany : md.any (fun p => p.1 = k)
  · simp [hany, find?_replace_ne md k v k' h]
  · simp only [Bool.not_eq_true] at hany
    simp [hany, find?_append_ne md k v k' h]

/-- A key absent from an association list is not found. -/
theorem find?_key_none {α : Type} (l : List (String × α)) (k : String)
    (h : k ∉ l.map Prod.fst) : l.find? (fun p => p.1 = k) = none := by
  induction l with
  | nil => rfl
  | cons p l ih =>
    have hp : ¬ p.1 = k := by
      intro hh
      exact h (by simp [hh])
    have hrest : k ∉ l.map Prod.fst := fun hh => h (by simp [hh])
    simp [List.find?_cons, hp, ih hrest]

/-- With nodup keys, a member is what `find?` on its key returns. -/
theorem find?_key_of_mem_nodup {α : Type} (l : List (String × α))
    (hnod : (l.map Prod.fst).Nodup) (p : String × α) (hp : p ∈ l) :
    l.find? (fun q => q.1 = p.1) = some p := by
  induction l with
  | nil => simp at hp
  | cons q l ih =>
    rcases List.mem_cons.mp hp with hq | hq
    · subst hq
      simp [List.find?_cons]
    · have hqp : ¬ q.1 = p.1 := by
        intro hh
        have : q.1 ∈ l.map Prod.fst := by
          rw [hh]
          exact List.mem_map_of_mem Prod.fst hq
        exact (List.nodup_cons.mp hnod).1 this
      simp only [List.find?_cons, hqp]
      simpa [hqp] using ih (List.nodup_cons.mp hnod).2 hq

/-- Two distinct members make the deduplicated list longer than one. -/
theorem one_lt_dedup_length {l : List Nat} {a b : Nat}
    (ha : a ∈ l) (hb : b ∈ l) (hab : a ≠ b) : 1 < l.dedup.length := by
  have ha' : a ∈ l.dedup := List.mem_dedup.mpr ha
  have hb' : b ∈ l.dedup := List.mem_dedup.mpr hb
  match hd : l.dedup with
  | [] => rw [hd] at ha'; simp at ha'
  | [x] =>
    rw [hd] at ha' hb'
    simp at ha' hb'
    exact absurd (ha'.trans hb'.symm) hab
  | x :: y :: t => simp

/-- A list of equal values deduplicates to at most one element. -/
theorem dedup_length_le_one {l : List Nat} {a : Nat}
    (h : ∀ x ∈ l, x = a) : l.dedup.length ≤ 1 := by
  by_contra hlt
  push_neg at hlt
  match hd : l.dedup with
  | [] => rw [hd] at hlt; simp at hlt
  | [x] => rw [hd] at hlt; simp at hlt
  | x :: y :: t =>
    have hnd : l.dedup.Nodup := l.nodup_dedup
    rw [hd] at hnd
    have hx : x ∈ l := List.mem_dedup.mp (by rw [hd]; simp)
    have hy : y ∈ l := List.mem_dedup.mp (by rw [hd]; simp)
    have : x = y := (h x hx).trans (h y hy).symm
    rw [this] at hnd
    simp at hnd

/-! ### Helper lemmas: the `0 1` token round trip -/

/-- `(String.mk l).data = l`. -/
theorem data_mk (l : List Char) : (String.mk l).data = l := rfl

/-- Both boolean tokens are one non-whitespace character. -/
theorem boolTok_nonws (b : Bool) :
    ∃ c, boolTok b = [c] ∧ c.isWhitespace = false := by
  cases b
  · exact ⟨'0', rfl, by decide⟩
  · exact ⟨'1', rfl, by decide⟩

/-- Splitting the joined tokens on whitespace recovers the tokens. -/
theorem splitWs_join_boolTok (bs : List Bool) :
    splitWsAux (joinSpace (bs.map boolTok)) [] = bs.map boolTok := by
  have hsp : (' ' : Char).isWhitespace = true := by decide
  induction bs with
  | nil => rfl
  | cons b rest ih =>
    obtain ⟨c, hc, hcw⟩ := boolTok_nonws b
    cases rest with
    | nil => simp [joinSpace, hc, splitWsAux, hcw]
    | cons b' rest' =>
      simp only [List.map_cons]
      rw [show joinSpace (boolTok b :: boolTok b' :: rest'.map boolTok)
            = boolTok b ++ ' ' :: joinSpace (boolTok b' :: rest'.map boolTok) from rfl]
      rw [hc]
      simp only [List.cons_append, List.nil_append]
      rw [show splitWsAux (c :: ' ' :: joinSpace (boolTok b' :: rest'.map boolTok)) []
            = splitWsAux (' ' :: joinSpace (boolTok b' :: rest'.map boolTok)) [c] by
        simp [splitWsAux, hcw]]
      rw [show splitWsAux (' ' :: joinSpace (boolTok b' :: rest'.map boolTok)) [c]
            = [c].reverse :: splitWsAux (joinSpace (boolTok b' :: rest'.map boolTok)) [] by
        simp [splitWsAux, hsp]]
      simp only [List.map_cons] at ih
      rw [ih]
      simp

/-- `int` of a boolean token. -/
theorem pyInt_boolTok (b : Bool) :
    pyInt (boolTok b) = some (if b then 1 else 0) := by
  cases b <;> decide

/-- `mapM int` over the token list. -/
theorem mapM_pyInt_boolTok (bs : List Bool) :
    (bs.map boolTok).mapM pyInt
      = some (bs.map (fun b => if b then (1 : Int) else 0)) := by
  induction bs with
  | nil => rfl
  | cons b rest ih =>
    rw [List.map_cons, List.mapM_cons, pyInt_boolTok, ih]
    rfl

/-- The state-vector string parses back to the vector. -/
theorem parse_states_state (bs : List Bool) :
    parse_states (state_as_str bs) = some bs := by
  unfold parse_states state_as_str splitWsChars
  rw [data_mk, splitWs_join_boolTok, mapM_pyInt_boolTok]
  have h : ((fun n => n != 0) ∘ fun b : Bool => if b then (1 : Int) else 0)
      = fun b : Bool => b := by
    funext b
    cases b <;> rfl
  simp [List.map_map, h]

/-! ### Helper lemmas: note-line decode -/

/-- A colon after a colon-free prefix is found by `contains`. -/
theorem contains_colon_append (k v : List Char) :
    (k ++ ':' :: v).contains ':' = true :=
  List.elem_iff.mpr (List.mem_append_right k (List.mem_cons_self ':' v))

/-- `notColon` holds exactly away from the colon. -/
theorem notColon_self : notColon ':' = false := by
  decide

/-- A character other than the colon passes `notColon`. -/
theorem notColon_of_ne {c : Char} (h : c ≠ ':') : notColon c = true := by
  simp [notColon, h]

/-- `takeWhile` up to the first colon returns the colon-free prefix. -/
theorem takeWhile_colon (k v : List Char) (hk : ∀ c ∈ k, c ≠ ':') :
    (k ++ ':' :: v).takeWhile notColon = k := by
  induction k with
  | nil => simp [List.takeWhile_cons, notColon_self]
  | cons c k ih =>
    have hc := notColon_of_ne (hk c (by simp))
    simp [List.takeWhile_cons, hc, ih (fun d hd => hk d (by simp [hd]))]

/-- `dropWhile` up to the first colon returns the colon and the rest. -/
theorem dropWhile_colon (k v : List Char) (hk : ∀ c ∈ k, c ≠ ':') :
    (k ++ ':' :: v).dropWhile notColon = ':' :: v := by
  induction k with
  | nil => simp [List.dropWhile_cons, notColon_self]
  | cons c k ih =>
    have hc := notColon_of_ne (hk c (by simp))
    simp [List.dropWhile_cons, hc, ih (fun d hd => hk d (by simp [hd]))]

/-- Splitting at the first colon of a line with a colon-free prefix. -/
theorem splitFirstColon_key (k v : List Char) (hk : ∀ c ∈ k, c ≠ ':') :
    splitFirstColon (k ++ ':' :: v) = some (k, v) := by
  unfold splitFirstColon
  rw [contains_colon_append k v]
  simp [takeWhile_colon k v hk, dropWhile_colon k v hk]

/-- The characters of a serialized note line. -/
theorem noteLine_data (k v : String) :
    (noteLine k v).data = k.data ++ ':' :: ' ' :: v.data := by
  have h : (noteLine k v).data = (k.data ++ (": ").data) ++ v.data := by
    simp [noteLine, String.data_append]
  rw [h]
  rw [show (": ").data = [':', ' '] from rfl, List.append_assoc]
  rfl

/-! ### Helper lemmas: whitespace edges of the state string -/

/-- The head of a nonempty state string is a digit. -/
theorem state_head (b : Bool) (bs : List Bool) :
    ∃ c t, joinSpace ((b :: bs).map boolTok) = c :: t ∧ c.isWhitespace = false := by
  obtain ⟨c, hc, hcw⟩ := boolTok_nonws b
  cases bs with
  | nil => exact ⟨c, [], by simp [joinSpace, hc], hcw⟩
  | cons b' rest =>
    exact ⟨c, ' ' :: joinSpace ((b' :: rest).map boolTok),
      by simp [joinSpace, hc], hcw⟩

/-- The last character of a nonempty state string is a digit. -/
theorem state_rev_head (b : Bool) (bs : List Bool) :
    ∃ c t, (joinSpace ((b :: bs).map boolTok)).reverse = c :: t ∧
      c.isWhitespace = false := by
  induction bs generalizing b with
  | nil =>
    obtain ⟨c, hc, hcw⟩ := boolTok_nonws b
    exact ⟨c, [], by simp [joinSpace, hc], hcw⟩
  | cons b' rest ih =>
    obtain ⟨c, hc, hcw⟩ := boolTok_nonws b
    obtain ⟨d, t, hdt, hdw⟩ := ih b'
    refine ⟨d, t ++ [' ', c], ?_, hdw⟩
    rw [show joinSpace ((b :: b' :: rest).map boolTok)
          = c :: ' ' :: joinSpace ((b' :: rest).map boolTok) by
      simp [joinSpace, hc]]
    rw [List.reverse_cons, List.reverse_cons, hdt]
    simp

/-- A list with a non-whitespace head is untouched by `dropWhile`. -/
theorem dropWhile_ws_of_head {l : List Char} {c : Char} {t : List Char}
    (h : l = c :: t) (hc : c.isWhitespace = false) :
    l.dropWhile Char.isWhitespace = l := by
  subst h
  simp [List.dropWhile_cons, hc]

/-- Stripping the value part `' ' ++ state string` yields the state string. -/
theorem pyStrip_space_state (bs : List Bool) :
    pyStrip (' ' :: joinSpace (bs.map boolTok)) = joinSpace (bs.map boolTok) := by
  have hsp : (' ' : Char).isWhitespace = true := by decide
  cases bs with
  | nil => decide
  | cons b rest =>
    obtain ⟨c, t, hct, hcw⟩ := state_head b rest
    obtain ⟨d, u, hdu, hdw⟩ := state_rev_head b rest
    unfold pyStrip
    rw [show List.dropWhile Char.isWhitespace
          (' ' :: joinSpace ((b :: rest).map boolTok))
          = List.dropWhile Char.isWhitespace (joinSpace ((b :: rest).map boolTok)) by
      simp [List.dropWhile_cons, hsp]]
    rw [dropWhile_ws_of_head hct hcw, dropWhile_ws_of_head hdu hdw,
      List.reverse_reverse]

/-! ### Helper lemmas: metadata round trip of the reserved key -/

/-- An entry stored under the exact reserved key decodes to the reserved
key. -/
theorem decodedKey_key_ES (v : String) :
    decodedKey ("ENSEMBLE_STATE", v) = some "ENSEMBLE_STATE" := by
  unfold decodedKey
  rw [noteLine_data, splitFirstColon_key ("ENSEMBLE_STATE").data (' ' :: v.data)
    (by decide)]
  simp only [Option.map_some']
  rw [show pyStrip ("ENSEMBLE_STATE").data = ("ENSEMBLE_STATE").data by decide]

/-- A note line whose decoded key differs from `K` does not change the
lookup of `K`. -/
theorem lookup_step_ne (acc : List (String × String)) (kv : String × String)
    (K : String) (h : decodedKey kv ≠ some K) :
    lookupMeta (load_metadata_step acc (noteLine kv.1 kv.2)) K = lookupMeta acc K := by
  unfold load_metadata_step
  cases hsp : splitFirstColon (noteLine kv.1 kv.2).data with
  | none => rfl
  | some p =>
    apply lookupMeta_setMeta_ne
    intro hK
    apply h
    unfold decodedKey
    rw [hsp, Option.map_some', ← hK]

/-- Folding the lines of entries that do not decode to `K` preserves the
lookup of `K`. -/
theorem lookup_fold_ne (mds : List (String × String)) (acc : List (String × String))
    (K : String) (h : ∀ kv ∈ mds, decodedKey kv ≠ some K) :
    lookupMeta ((mds.map (fun p => noteLine p.1 p.2)).foldl load_metadata_step acc) K
      = lookupMeta acc K := by
  induction mds generalizing acc with
  | nil => rfl
  | cons kv mds ih =>
    rw [List.map_cons, List.foldl_cons,
      ih (load_metadata_step acc (noteLine kv.1 kv.2))
        (fun q hq => h q (List.mem_cons_of_mem kv hq))]
    exact lookup_step_ne acc kv K (h kv (List.mem_cons_self kv mds))

/-- Round trip of an annotated reaction's metadata: after writing the state
vector under the reserved key, saving and decoding the notes, the reserved
key holds exactly the state string. -/
theorem lookup_roundtrip_ES (md : List (String × String)) (bs : List Bool)
    (h : ∀ kv ∈ md, decodedKey kv ≠ some "ENSEMBLE_STATE") :
    lookupMeta (load_metadata (save_metadata
        (setMeta md "ENSEMBLE_STATE" (state_as_str bs)))) "ENSEMBLE_STATE"
      = some (state_as_str bs) := by
  have hany : md.any (fun p => p.1 = "ENSEMBLE_STATE") = false := by
    by_contra hc
    rw [Bool.not_eq_false, List.any_eq_true] at hc
    obtain ⟨kv, hkv, hk⟩ := hc
    have hk' : kv.1 = "ENSEMBLE_STATE" := by simpa using hk
    apply h kv hkv
    calc decodedKey kv = decodedKey (kv.1, kv.2) := rfl
      _ = decodedKey ("ENSEMBLE_STATE", kv.2) := by rw [hk']
      _ = some "ENSEMBLE_STATE" := decodedKey_key_ES kv.2
  rw [show setMeta md "ENSEMBLE_STATE" (state_as_str bs)
        = md ++ [("ENSEMBLE_STATE", state_as_str bs)] by
    simp [setMeta, hany]]
  rw [show save_metadata (md ++ [("ENSEMBLE_STATE", state_as_str bs)])
        = (md ++ [("ENSEMBLE_STATE", state_as_str bs)]).map
            (fun p => noteLine p.1 p.2) by
    simp [save_metadata]]
  unfold load_metadata
  rw [List.map_append, List.foldl_append]
  rw [show ([("ENSEMBLE_STATE", state_as_str bs)]).map (fun p => noteLine p.1 p.2)
        = [noteLine "ENSEMBLE_STATE" (state_as_str bs)] from rfl]
  rw [List.foldl_cons, List.foldl_nil]
  have hsp : splitFirstColon (noteLine "ENSEMBLE_STATE" (state_as_str bs)).data
      = some (("ENSEMBLE_STATE").data, ' ' :: (state_as_str bs).data) := by
    rw [noteLine_data]
    exact splitFirstColon_key _ _ (by decide)
  simp only [load_metadata_step, hsp]
  rw [show pyStrip ("ENSEMBLE_STATE").data = ("ENSEMBLE_STATE").data by decide]
  rw [show (state_as_str bs).data = joinSpace (bs.map boolTok) from rfl]
  rw [pyStrip_space_state]
  exact lookupMeta_setMeta_self _ _ _

/-- Round trip of an unannotated reaction's metadata: when no entry decodes
to the reserved key, the reloaded metadata has no reserved key. -/
theorem lookup_roundtrip_none (md : List (String × String))
    (h : ∀ kv ∈ md, decodedKey kv ≠ some "ENSEMBLE_STATE") :
    lookupMeta (load_metadata (save_metadata md)) "ENSEMBLE_STATE" = none := by
  cases hmd : md with
  | nil => rfl
  | cons kv md' =>
    rw [show save_metadata (kv :: md')
          = (kv :: md').map (fun p => noteLine p.1 p.2) by simp [save_metadata]]
    unfold load_metadata
    rw [lookup_fold_ne (kv :: md') [] _ (hmd ▸ h)]
    rfl

/-! ### Helper lemmas: the `save_ensemble` loop as a single map -/

/-- The single-state update keeps the reaction id. -/
theorem save_ensemble_upd_id (p : String × List Bool) (rxn : RxnM) :
    (save_ensemble_upd p rxn).id = rxn.id := by
  unfold save_ensemble_upd
  split <;> rfl

/-- With nodup state keys, the `save_ensemble` fold equals a single map
driven by state lookup. -/
theorem fold_upd_eq_map (states : List (String × List Bool))
    (hnod : (states.map Prod.fst).Nodup) (rxns : List RxnM) :
    states.foldl (fun acc p => acc.map (save_ensemble_upd p)) rxns
      = rxns.map (save_ensemble_apply states) := by
  induction states generalizing rxns with
  | nil =>
    rw [show save_ensemble_apply [] = fun rxn => rxn from funext fun rxn => rfl]
    simp
  | cons q states ih =>
    rw [List.foldl_cons, ih (List.nodup_cons.mp hnod).2, List.map_map]
    refine congrArg (fun f => List.map f rxns) (funext fun rxn => ?_)
    by_cases hq : rxn.id = q.1
    · have hupd : save_ensemble_upd q rxn
          = ⟨rxn.id, setMeta rxn.metadata "ENSEMBLE_STATE" (state_as_str q.2)⟩ := by
        simp [save_ensemble_upd, hq]
      have hnone : states.find? (fun p => p.1 = q.1) = none := by
        apply find?_key_none
        exact (List.nodup_cons.mp hnod).1
      simp only [Function.comp_apply, hupd, save_ensemble_apply,
        List.find?_cons, hq]
      rw [hnone]
      simp
    · have hupd : save_ensemble_upd q rxn = rxn := by
        simp [save_ensemble_upd, hq]
      have hqne : ¬ q.1 = rxn.id := fun hh => hq hh.symm
      simp only [Function.comp_apply, hupd, save_ensemble_apply,
        List.find?_cons, hqne]
      simp [hqne]

/-- `save_ensemble_meta` succeeds on covered states and is the lookup
map. -/
theorem save_ensemble_meta_spec (rxns : List RxnM)
    (states : List (String × List Bool))
    (hnod : (states.map Prod.fst).Nodup)
    (hall : states.all (fun p => rxns.any (fun rxn => rxn.id = p.1))) :
    save_ensemble_meta rxns states = some (rxns.map (save_ensemble_apply states)) := by
  unfold save_ensemble_meta
  rw [if_pos hall, fold_upd_eq_map states hnod rxns]

/-- Decoding the reloaded reactions of a saved ensemble recovers exactly
the annotated reactions with their vectors, in model order. -/
theorem decode_states_roundtrip (rxns : List RxnM)
    (states : List (String × List Bool))
    (h6 : ∀ rxn ∈ rxns, ∀ kv ∈ rxn.metadata, decodedKey kv ≠ some "ENSEMBLE_STATE") :
    decode_states ((rxns.map (save_ensemble_apply states)).map
        (fun r => ⟨r.id, load_metadata (save_metadata r.metadata)⟩))
      = some (recovered_states rxns states) := by
  induction rxns with
  | nil => rfl
  | cons rxn rxns ih =>
    have h6head := h6 rxn (List.mem_cons_self rxn rxns)
    have h6tail : ∀ r ∈ rxns, ∀ kv ∈ r.metadata,
        decodedKey kv ≠ some "ENSEMBLE_STATE" :=
      fun r hr => h6 r (List.mem_cons_of_mem rxn hr)
    rw [List.map_cons, List.map_cons]
    cases hf : states.find? (fun p => p.1 = rxn.id) with
    | some p =>
      have happ : save_ensemble_apply states rxn
          = ⟨rxn.id, setMeta rxn.metadata "ENSEMBLE_STATE" (state_as_str p.2)⟩ := by
        simp [save_ensemble_apply, hf]
      rw [happ]
      simp only [decode_states, lookup_roundtrip_ES rxn.metadata p.2 h6head,
        parse_states_state, ih h6tail]
      simp [recovered_states, List.filterMap_cons, hf]
    | none =>
      have happ : save_ensemble_apply states rxn = rxn := by
        simp [save_ensemble_apply, hf]
      rw [happ]
      simp only [decode_states, lookup_roundtrip_none rxn.metadata h6head,
        ih h6tail]
      simp [recovered_states, List.filterMap_cons, hf]

/-! ### Remaining small helpers -/

/-- Appending different suffixes to the same string gives different
strings. -/
theorem append_right_ne (r s t : String) (h : s.data ≠ t.data) :
    r ++ s ≠ r ++ t := by
  intro he
  apply h
  have h2 := congrArg String.data he
  rw [String.data_append, String.data_append] at h2
  exact List.append_cancel_left h2

/-- The cumulative `save_ensemble` update keeps the reaction id. -/
theorem save_ensemble_apply_id (states : List (String × List Bool)) (rxn : RxnM) :
    (save_ensemble_apply states rxn).id = rxn.id := by
  unfold save_ensemble_apply
  cases states.find? (fun p => p.1 = rxn.id) <;> rfl

/-! ### Claim theorems -/

/-- C2 (code bug evaluation): under the structured dialect, a reaction with
lower bound `-5` and upper bound exactly `0` gets a fresh reaction-scoped
upper-bound parameter instead of the shared zero parameter, because the
upper-bound branch of `_save_fbc_fluxbounds` tests `lb == 0` instead of
`ub == 0`; dually, a reaction with lower bound `0` and upper bound `500`
has its upper bound collapsed onto the shared zero parameter, silently
corrupting the value. -/
theorem C2_fbc2_zero_upper_bound_eval :
    (save_fbc_fluxbounds [("R1", some (-5), some 0)]).2
      = [("R1", "R1_lower_bound", "R1_upper_bound")] ∧
    "R1_upper_bound" ≠ DEFAULT_ZERO_BOUND_ID ∧
    (save_fbc_fluxbounds [("R2", some 0, some 500)]).2
      = [("R2", DEFAULT_ZERO_BOUND_ID, DEFAULT_ZERO_BOUND_ID)] := by
  refine ⟨?_, ?_, ?_⟩ <;> decide

/-- C6 (counterexample): the legacy encoder writes the
`OBJECTIVE_COEFFICIENT` parameter even for a reaction whose objective
coefficient is `0`, contradicting the claim that it is omitted. -/
theorem C6_counterexample :
    Param.mk OBJ_TAG 0 ∈ save_cobra_parameters_rxn (some 1) (some 2) 0 false := by
  decide

/-- C6 (amended): the structured-dialect encoder omits zero objective
coefficients and keeps exactly the nonzero ones, while the legacy encoder
always writes the `OBJECTIVE_COEFFICIENT` parameter — value `0` included;
zero coefficients are nevertheless dropped again by the legacy load's
truthiness filter. -/
theorem C6_objective_zero_encoding :
    (∀ lb ub : Option ℚ, ∀ setd : Bool,
        Param.mk OBJ_TAG 0 ∈ save_cobra_parameters_rxn lb ub 0 setd) ∧
    (∀ objective : List (String × ℚ), ∀ p ∈ save_fbc_objective objective,
        p.2 ≠ 0) ∧
    (∀ objective : List (String × ℚ), ∀ p ∈ objective, p.2 ≠ 0 →
        p ∈ save_fbc_objective objective) ∧
    (∀ rxns : List (String × Option (List Param)),
        ∀ q ∈ load_cobra_objective rxns, q.2 ≠ 0) := by
  refine ⟨?_, ?_, ?_, ?_⟩
  · intro lb ub setd
    simp [save_cobra_parameters_rxn]
  · intro objective p hp
    simpa using (List.mem_filter.mp hp).2
  · intro objective p hp hne
    exact List.mem_filter.mpr ⟨hp, by simpa using hne⟩
  · intro rxns q hq
    simp only [load_cobra_objective, List.mem_filterMap] at hq
    obtain ⟨r, _, hfr⟩ := hq
    cases hc : get_cb_parameter r.2 OBJ_TAG (some 0) with
    | none => rw [hc] at hfr; simp at hfr
    | some c =>
      rw [hc] at hfr
      by_cases hc0 : c = 0
      · subst hc0
        simp at hfr
      · have h2 : (r.1, c) = q := by
          apply Option.some.inj
          simpa [hc0] using hfr
        rw [← h2]
        exact hc0

/-- C6 (witness): the amended statement at concrete inputs. -/
theorem C6_objective_zero_encoding_witness :
    Param.mk OBJ_TAG 0 ∈ save_cobra_parameters_rxn (some (-10)) (some 10) 0 true ∧
    ("R1", (2 : ℚ)) ∈ save_fbc_objective [("R1", 2), ("R2", 0)] :=
  ⟨C6_objective_zero_encoding.1 (some (-10)) (some 10) true,
   C6_objective_zero_encoding.2.2.1 [("R1", 2), ("R2", 0)] ("R1", 2)
     (by decide) (by decide)⟩

/-- C7 (counterexample): the metadata round trip of
`{"SOURCE": "KEGG", "NOTE": "approx:value"}` does not truncate the value at
its colon — the decoder splits only at the first colon of the line, which
is the key/value separator. -/
theorem C7_counterexample :
    load_metadata (save_metadata [("SOURCE", "KEGG"), ("NOTE", "approx:value")])
      ≠ [("SOURCE", "KEGG"), ("NOTE", "approx")] := by
  decide

/-- C7 (amended): the round trip returns the annotation map unchanged; the
value keeps every colon after the first one of the line, so the truncation
hazard concerns colon-bearing keys, not values. -/
theorem C7_metadata_roundtrip_eval :
    load_metadata (save_metadata [("SOURCE", "KEGG"), ("NOTE", "approx:value")])
      = [("SOURCE", "KEGG"), ("NOTE", "approx:value")] := by
  decide

/-- C8: the legacy rule `"(b0001 and b0002) or b0003"` parses to the GPR
association `[{G_b0001, G_b0002}, {G_b0003}]` — each bare token prefixed
with `G_` — and the empty rule yields Python `None` rather than an
error. -/
theorem C8_legacy_rule_parse :
    parse_gpr_rule "(b0001 and b0002) or b0003"
      = some (some ⟨[⟨["G_b0001", "G_b0002"]⟩, ⟨["G_b0003"]⟩]⟩) ∧
    parse_gpr_rule "" = some none := by
  exact ⟨by decide, rfl⟩

/-- C9 (counterexample): an AND nested inside an AND under the top OR does
not fail; `_parse_fbc_association` prints the not-DNF message, silently
drops the inner gene `g2`, and still returns an association with only
`g1`. -/
theorem C9_counterexample :
    parse_fbc_association (.fbcOr [.fbcAnd [.geneRef "g1", .fbcAnd [.geneRef "g2"]]])
      = some (⟨[⟨["g1"]⟩]⟩, [notDnfMsg]) := by
  rfl

/-- C9 (amended): a non-conforming node below an AND is reported only by a
printed warning and its genes are silently dropped, with a (possibly
truncated) association still returned; an OR nested directly under the top
OR instead crashes with `AttributeError`, because the uncalled
`isGeneProductRef` check lets `getGeneProduct()` run on it.  No
`NonMonotonicLogicError` exists. -/
theorem C9_fbc_association_shapes (g₁ g₂ : String) :
    parse_fbc_association (.fbcOr [.fbcAnd [.geneRef g₁, .fbcAnd [.geneRef g₂]]])
      = some (⟨[⟨[g₁]⟩]⟩, [notDnfMsg]) ∧
    parse_fbc_association (.fbcOr [.fbcOr [.geneRef g₁]]) = none := by
  exact ⟨rfl, rfl⟩

/-- C9 (witness): the amended statement at concrete gene names. -/
theorem C9_fbc_association_shapes_witness :
    parse_fbc_association (.fbcOr [.fbcAnd [.geneRef "a", .fbcAnd [.geneRef "b"]]])
      = some (⟨[⟨["a"]⟩]⟩, [notDnfMsg]) ∧
    parse_fbc_association (.fbcOr [.fbcOr [.geneRef "a"]]) = none :=
  C9_fbc_association_shapes "a" "b"

/-- C3 (counterexample): loading with the unrecognized flavor `"sbml3"`
does return a model — no error is raised. -/
theorem C3_counterexample :
    load_cbmodel exDocC3 (some "sbml3") ≠ none := by
  decide

/-- C3 (amended): for every flavor selector other than `'cobra'` and
`'fbc2'`, `_load_cbmodel` prints `unsupported SBML flavor` and still
returns the structurally loaded model, with no bounds, objective, genes or
GPRs populated. -/
theorem C3_unsupported_flavor (doc : SbmlDoc) (flavor : Option String)
    (h₁ : flavor ≠ some COBRA_MODEL) (h₂ : flavor ≠ some FBC2_MODEL) :
    load_cbmodel doc flavor
      = some ⟨doc.id, doc.reactions.map (fun r => ⟨r.id, load_metadata r.notes⟩),
              [], [], [], [], ["unsupported SBML flavor"]⟩ := by
  unfold load_cbmodel
  rw [if_neg h₁, if_neg h₂]

/-- C3 (witness): the amended statement at a concrete document and
flavor. -/
theorem C3_unsupported_flavor_witness :
    load_cbmodel exDocC3 (some "sbml3")
      = some ⟨"m", [⟨"R1", [("SOURCE", "KEGG")]⟩], [], [], [], [],
              ["unsupported SBML flavor"]⟩ := by
  rw [C3_unsupported_flavor exDocC3 (some "sbml3") (by decide) (by decide)]
  rfl

/-- C1: for a constraint triple whose bounds are strictly between the
sentinels and nonzero, the structured-dialect encoder creates the
reaction-scoped parameters `{r_id}_lower_bound` / `{r_id}_upper_bound`
holding the exact values, and the structured-dialect decoder resolves them
back to exactly the original bounds. -/
theorem C1_fbc2_bounds_exact_roundtrip (r_id : String) (lb ub : ℚ)
    (hlb₁ : DEFAULT_LOWER_BOUND < lb) (hlb₂ : lb < DEFAULT_UPPER_BOUND)
    (hlb₀ : lb ≠ 0)
    (hub₁ : DEFAULT_LOWER_BOUND < ub) (hub₂ : ub < DEFAULT_UPPER_BOUND)
    (hub₀ : ub ≠ 0) :
    (save_fbc_fluxbounds [(r_id, some lb, some ub)]).2
      = [(r_id, r_id ++ "_lower_bound", r_id ++ "_upper_bound")] ∧
    load_fbc2_bounds (save_fbc_fluxbounds [(r_id, some lb, some ub)]).1
        (save_fbc_fluxbounds [(r_id, some lb, some ub)]).2
      = some [(r_id, some lb, some ub)] := by
  have h₁ : ¬ lb ≤ DEFAULT_LOWER_BOUND := not_le.mpr hlb₁
  have h₂ : ¬ DEFAULT_UPPER_BOUND ≤ ub := not_le.mpr hub₂
  have h₃ : ¬ (some lb = some (0 : ℚ)) := by simpa using hlb₀
  have hsave : save_fbc_fluxbounds [(r_id, some lb, some ub)]
      = ([⟨DEFAULT_LOWER_BOUND_ID, DEFAULT_LOWER_BOUND⟩,
          ⟨DEFAULT_UPPER_BOUND_ID, DEFAULT_UPPER_BOUND⟩,
          ⟨DEFAULT_ZERO_BOUND_ID, 0⟩,
          ⟨r_id ++ "_lower_bound", lb⟩, ⟨r_id ++ "_upper_bound", ub⟩],
         [(r_id, r_id ++ "_lower_bound", r_id ++ "_upper_bound")]) := by
    simp [save_fbc_fluxbounds, save_fbc_fluxbounds_step, h₁, h₂, h₃, hlb₀]
  have hne : ¬ (r_id ++ "_upper_bound" = r_id ++ "_lower_bound") :=
    append_right_ne r_id "_upper_bound" "_lower_bound" (by decide)
  refine ⟨by rw [hsave], ?_⟩
  rw [hsave]
  have hpt₁ : paramTable
      [⟨DEFAULT_LOWER_BOUND_ID, DEFAULT_LOWER_BOUND⟩,
       ⟨DEFAULT_UPPER_BOUND_ID, DEFAULT_UPPER_BOUND⟩,
       ⟨DEFAULT_ZERO_BOUND_ID, 0⟩,
       ⟨r_id ++ "_lower_bound", lb⟩, ⟨r_id ++ "_upper_bound", ub⟩]
      (r_id ++ "_lower_bound") = some lb := by
    simp [paramTable, List.find?_cons, hne]
  have hpt₂ : paramTable
      [⟨DEFAULT_LOWER_BOUND_ID, DEFAULT_LOWER_BOUND⟩,
       ⟨DEFAULT_UPPER_BOUND_ID, DEFAULT_UPPER_BOUND⟩,
       ⟨DEFAULT_ZERO_BOUND_ID, 0⟩,
       ⟨r_id ++ "_lower_bound", lb⟩, ⟨r_id ++ "_upper_bound", ub⟩]
      (r_id ++ "_upper_bound") = some ub := by
    simp [paramTable, List.find?_cons]
  simp only [load_fbc2_bounds, List.mapM_cons, List.mapM_nil, hpt₁, hpt₂]
  rfl

/-- C1 (witness): the round trip at `r_id = "R1"`, bounds `5` and `7`. -/
theorem C1_fbc2_bounds_exact_roundtrip_witness :
    (save_fbc_fluxbounds [("R1", some 5, some 7)]).2
      = [("R1", "R1" ++ "_lower_bound", "R1" ++ "_upper_bound")] ∧
    load_fbc2_bounds (save_fbc_fluxbounds [("R1", some 5, some 7)]).1
        (save_fbc_fluxbounds [("R1", some 5, some 7)]).2
      = some [("R1", some 5, some 7)] :=
  C1_fbc2_bounds_exact_roundtrip "R1" 5 7 (by decide) (by decide) (by decide)
    (by decide) (by decide) (by decide)

/-- C4: when the decoded reaction-state table contains two vectors of
different lengths, `load_ensemble` takes the mismatch branch — checked once
after all reactions are decoded — and returns no ensemble model. -/
theorem C4_inconsistent_ensemble_size (rxns : List RxnM)
    (rs : List (String × List Bool))
    (hdec : decode_states rxns = some rs)
    (p q : String × List Bool) (hp : p ∈ rs) (hq : q ∈ rs)
    (hne : p.2.length ≠ q.2.length) :
    load_ensemble rxns = .sizeMismatch := by
  unfold load_ensemble
  rw [hdec]
  have hlt : 1 < (rs.map (fun x => x.2.length)).dedup.length :=
    one_lt_dedup_length (List.mem_map_of_mem _ hp) (List.mem_map_of_mem _ hq) hne
  simp [hlt]

/-- C4 (witness): two annotated reactions with vectors of lengths 2 and 1
make the load return the mismatch outcome. -/
theorem C4_inconsistent_ensemble_size_witness :
    load_ensemble [⟨"r1", [("ENSEMBLE_STATE", "1 0")]⟩,
                   ⟨"r2", [("ENSEMBLE_STATE", "1")]⟩]
      = .sizeMismatch :=
  C4_inconsistent_ensemble_size _ [("r1", [true, false]), ("r2", [true])]
    (by decide) ("r1", [true, false]) ("r2", [true])
    (by decide) (by decide) (by decide)

/-- C10: `save_ensemble` writes the `ENSEMBLE_STATE` entry into the
metadata of each annotated reaction of the in-memory model it was given,
and the entry is still there in the model it leaves behind after the call
(the serialization happens afterwards and nothing removes the entry). -/
theorem C10_save_ensemble_mutates_model (rxns : List RxnM)
    (states : List (String × List Bool)) (r : String) (bs : List Bool)
    (hnod : (states.map Prod.fst).Nodup)
    (hmem : (r, bs) ∈ states)
    (hall : states.all (fun p => rxns.any (fun rxn => rxn.id = p.1))) :
    (save_ensemble rxns states).map (fun pr =>
        (pr.1.find? (fun rxn => rxn.id = r)).map
          (fun rxn => lookupMeta rxn.metadata "ENSEMBLE_STATE"))
      = some (some (some (state_as_str bs))) := by
  unfold save_ensemble
  rw [save_ensemble_meta_spec rxns states hnod hall]
  have hcomp : ((fun rxn => decide (rxn.id = r)) ∘ save_ensemble_apply states)
      = fun rxn => decide (rxn.id = r) := by
    funext rxn
    rw [Function.comp_apply, save_ensemble_apply_id]
  have hsome : ∃ rxn ∈ rxns, rxn.id = r := by
    have := List.all_eq_true.mp hall (r, bs) hmem
    simpa using this
  obtain ⟨rxn₀, hmem₀, hid₀⟩ := hsome
  have hfindSome : (rxns.find? (fun rxn => rxn.id = r)).isSome :=
    List.find?_isSome.mpr ⟨rxn₀, hmem₀, by simpa using hid₀⟩
  obtain ⟨rxn₁, hfind⟩ := Option.isSome_iff_exists.mp hfindSome
  have hid₁ : rxn₁.id = r := by
    simpa using List.find?_some hfind
  have hfs : states.find? (fun p => p.1 = rxn₁.id) = some (r, bs) := by
    rw [hid₁]
    exact find?_key_of_mem_nodup states hnod (r, bs) hmem
  have happ : save_ensemble_apply states rxn₁
      = ⟨rxn₁.id, setMeta rxn₁.metadata "ENSEMBLE_STATE" (state_as_str bs)⟩ := by
    unfold save_ensemble_apply
    rw [hfs]
  simp only [Option.map_some', List.find?_map, hcomp, hfind, happ,
    lookupMeta_setMeta_self]

/-- C10 (witness): one reaction, one state vector. -/
theorem C10_save_ensemble_mutates_model_witness :
    (save_ensemble [⟨"r1", []⟩] [("r1", [true])]).map (fun pr =>
        (pr.1.find? (fun rxn => rxn.id = "r1")).map
          (fun rxn => lookupMeta rxn.metadata "ENSEMBLE_STATE"))
      = some (some (some (state_as_str [true]))) :=
  C10_save_ensemble_mutates_model [⟨"r1", []⟩] [("r1", [true])] "r1" [true]
    (by decide) (by decide) (by decide)

/-- C5: saving an ensemble whose state vectors all have length `L` and
loading the document back yields an ensemble of size `L` whose recovered
vector for each annotated reaction equals the original (hypotheses: the
state table is a nonempty dict over model reactions, and no pre-existing
metadata entry decodes to the reserved key). -/
theorem C5_ensemble_save_load_roundtrip (rxns : List RxnM)
    (states : List (String × List Bool)) (L : Nat)
    (hlen : ∀ p ∈ states, p.2.length = L)
    (hne : states ≠ [])
    (hnod : (states.map Prod.fst).Nodup)
    (hall : states.all (fun p => rxns.any (fun rxn => rxn.id = p.1)))
    (h6 : ∀ rxn ∈ rxns, ∀ kv ∈ rxn.metadata,
        decodedKey kv ≠ some "ENSEMBLE_STATE") :
    ensemble_roundtrip rxns states
      = .ok ⟨rxns.map RxnM.id, L, recovered_states rxns states⟩ ∧
    ∀ p ∈ states,
      ((recovered_states rxns states).find? (fun q => q.1 = p.1)).map Prod.snd
        = some p.2 := by
  have hszall : ∀ x ∈ (recovered_states rxns states).map (fun p => p.2.length),
      x = L := by
    intro x hx
    obtain ⟨e, heR, hex⟩ := List.mem_map.mp hx
    obtain ⟨rxn, hrxn, hfe⟩ := List.mem_filterMap.mp heR
    cases hf : states.find? (fun p => p.1 = rxn.id) with
    | none => rw [hf] at hfe; simp at hfe
    | some p =>
      rw [hf] at hfe
      have he : e = (rxn.id, p.2) := by
        apply Eq.symm
        apply Option.some.inj
        simpa using hfe
      have hpmem : p ∈ states := List.mem_of_find?_eq_some hf
      rw [← hex, he]
      exact hlen p hpmem
  constructor
  · -- the round trip computation
    unfold ensemble_roundtrip save_ensemble
    rw [save_ensemble_meta_spec rxns states hnod hall]
    simp only [Option.map_some']
    have hmaps : (((rxns.map (save_ensemble_apply states)).map
          (fun r => (r.id, save_metadata r.metadata))).map
          (fun p => (⟨p.1, load_metadata p.2⟩ : RxnM)))
        = (rxns.map (save_ensemble_apply states)).map
          (fun r => ⟨r.id, load_metadata (save_metadata r.metadata)⟩) := by
      rw [List.map_map]
      rfl
    rw [hmaps]
    unfold load_ensemble
    rw [decode_states_roundtrip rxns states h6]
    have hle := dedup_length_le_one hszall
    have hnotlt : ¬ 1 < ((recovered_states rxns states).map
        (fun p => p.2.length)).dedup.length := by
      omega
    simp only [hnotlt, if_false]
    obtain ⟨p₀, hp₀⟩ : ∃ p₀, p₀ ∈ states := by
      cases states with
      | nil => exact absurd rfl hne
      | cons a l => exact ⟨a, List.mem_cons_self a l⟩
    have hany₀ : ∃ rxn ∈ rxns, rxn.id = p₀.1 := by
      simpa using List.all_eq_true.mp hall p₀ hp₀
    obtain ⟨rxn₀, hrxn₀, hid₀⟩ := hany₀
    have hfR : recovered_states rxns states ≠ [] := by
      intro hnil
      rw [recovered_states] at hnil
      have hf := (List.filterMap_eq_nil_iff.mp hnil) rxn₀ hrxn₀
      rw [hid₀, find?_key_of_mem_nodup states hnod p₀ hp₀] at hf
      simp at hf
    cases hsz : (recovered_states rxns states).map (fun p => p.2.length) with
    | nil =>
      exact absurd (List.map_eq_nil_iff.mp hsz) hfR
    | cons l ls =>
      have hlL : l = L := hszall l (by rw [hsz]; exact List.mem_cons_self l ls)
      subst hlL
      have hids : (((rxns.map (save_ensemble_apply states)).map
            (fun r => ⟨r.id, load_metadata (save_metadata r.metadata)⟩)).map
            (fun r : RxnM => r.id))
          = rxns.map RxnM.id := by
        rw [List.map_map, List.map_map]
        refine congrArg (fun f => List.map f rxns) (funext fun rxn => ?_)
        simp [save_ensemble_apply_id]
      simp only [hids]
      have hmk : mkEnsembleModel (rxns.map RxnM.id) l
            (recovered_states rxns states)
          = some ⟨rxns.map RxnM.id, l, recovered_states rxns states⟩ := by
        unfold mkEnsembleModel
        rw [if_neg hfR, if_pos]
        apply List.all_eq_true.mpr
        intro e heR
        obtain ⟨rxn, hrxn, hfe⟩ := List.mem_filterMap.mp heR
        cases hf : states.find? (fun p => p.1 = rxn.id) with
        | none => rw [hf] at hfe; simp at hfe
        | some p =>
          rw [hf] at hfe
          have he : e = (rxn.id, p.2) := by
            apply Eq.symm
            apply Option.some.inj
            simpa using hfe
          have hlenp : e.2.length = l := by
            have : e.2.length ∈ (recovered_states rxns states).map
                (fun p => p.2.length) := List.mem_map_of_mem _ heR
            exact hszall _ this
          simp only [hlenp, Bool.and_eq_true, decide_eq_true_eq, and_true]
          apply List.elem_iff.mpr
          rw [he]
          exact List.mem_map_of_mem RxnM.id hrxn
      rw [hmk]
  · -- the recovered vector of each annotated reaction
    intro p hp
    have hexq : ∃ rxn ∈ rxns, rxn.id = p.1 := by
      simpa using List.all_eq_true.mp hall p hp
    obtain ⟨rxn₂, hrxn₂, hid₂⟩ := hexq
    have hfind2 : ((recovered_states rxns states).find?
        (fun q => q.1 = p.1)).isSome := by
      apply List.find?_isSome.mpr
      refine ⟨(rxn₂.id, p.2), ?_, by simp [hid₂]⟩
      apply List.mem_filterMap.mpr
      refine ⟨rxn₂, hrxn₂, ?_⟩
      rw [hid₂, find?_key_of_mem_nodup states hnod p hp]
      rfl
    obtain ⟨e, hfe⟩ := Option.isSome_iff_exists.mp hfind2
    have he1 : e.1 = p.1 := by
      simpa using List.find?_some hfe
    have heR : e ∈ recovered_states rxns states :=
      List.mem_of_find?_eq_some hfe
    obtain ⟨rxn₃, hrxn₃, hf3⟩ := List.mem_filterMap.mp heR
    cases hf : states.find? (fun q => q.1 = rxn₃.id) with
    | none => rw [hf] at hf3; simp at hf3
    | some q =>
      rw [hf] at hf3
      have he : e = (rxn₃.id, q.2) := by
        apply Eq.symm
        apply Option.some.inj
        simpa using hf3
      have hid3 : rxn₃.id = p.1 := by
        rw [he] at he1
        exact he1
      rw [hid3] at hf
      have hqp : q = p := by
        have h := find?_key_of_mem_nodup states hnod p hp
        rw [hf] at h
        exact Option.some.inj h
      rw [hfe, he, hqp]
      rfl

/-- C5 (witness): two reactions, one annotated with a length-2 vector:
the round trip returns an ensemble of size 2 with the original vector. -/
theorem C5_ensemble_save_load_roundtrip_witness :
    ensemble_roundtrip [⟨"r1", [("NOTE", "x")]⟩, ⟨"r2", []⟩]
        [("r1", [true, false])]
      = .ok ⟨["r1", "r2"], 2, [("r1", [true, false])]⟩ :=
  (C5_ensemble_save_load_roundtrip [⟨"r1", [("NOTE", "x")]⟩, ⟨"r2", []⟩]
    [("r1", [true, false])] 2
    (by decide) (by decide) (by decide) (by decide) (by decide)).1

end Framed
